import Mathlib

/-!
Shallow embedding of the sprite-render repository (OpenGL backend,
`src/backends/opengl.rs`, and the camera in `src/common.rs`), together with
theorems checking the natural-language specification against it.

Modelling conventions:
* `TextureId` (a wrapper around a GL texture name, `u32`) is modelled as `Nat`.
* `WindowId` (opaque equality-comparable handle) is modelled as `Nat`.
* Machine integers are modelled as `Nat` with explicit `% 2^w` at the places
  where the Rust code performs a wrapping cast or release-mode wrapping
  arithmetic (`as u16`, `as u32`, `u32` multiplication).
* `HashMap` is modelled as an association list; the only hash map whose
  iteration/insertion behaviour matters (`texture_unit_map`) is only ever
  read through `get`, so the association-list model is faithful.
* Rust panics (`unwrap`, `unimplemented!`) are modelled by `Option`, with
  `none` meaning the call panics.  GL/glutin calls themselves have no
  observable effect on the embedded state and are dropped.
-/

namespace SpriteRender

/-! ## Association-list model of `HashMap` operations -/

/-- `HashMap::get`: first binding of key `k`, if any. -/
def mapGet {α : Type} (m : List (Nat × α)) (k : Nat) : Option α :=
  (m.find? (fun p => p.1 == k)).map (fun p => p.2)

/-- `HashMap::insert` / assignment through `get_mut`: replace the binding of
`k` if present, otherwise append a new binding. -/
def mapSet {α : Type} : List (Nat × α) → Nat → α → List (Nat × α)
  | [], k, v => [(k, v)]
  | (k', v') :: m, k, v =>
    if k' = k then (k, v) :: m else (k', v') :: mapSet m k v

/-- `HashMap::remove`: drop the binding of `k`, if any. -/
def mapRemove {α : Type} : List (Nat × α) → Nat → List (Nat × α)
  | [], _ => []
  | (k', v') :: m, k => if k' = k then m else (k', v') :: mapRemove m k

/-! ## Texture-unit allocation (`GlRenderer::draw_sprites`, the per-sprite loop)

The loop over `sprites` in `draw_sprites` looks each sprite's texture up in
`texture_unit_map`; on a miss it panics if the map is full, otherwise binds
the texture to unit `texture_unit_map.len()` and records the binding.
`AllocState` carries the map plus the observable trace: the list of textures
bound (in bind order) and the unit written out for each sprite. -/

structure AllocState where
  map : List (Nat × Nat)
  binds : List Nat
  units : List Nat
deriving DecidableEq, Repr

/-- One `draw_sprites` texture-unit loop, translated from
`src/backends/opengl.rs` lines 146-165.  `none` models the
`unimplemented!` panic. -/
def allocGo (maxUnits : Nat) (s : AllocState) : List Nat → Option AllocState
  | [] => some s
  | t :: ts =>
    match mapGet s.map t with
    | some u => allocGo maxUnits ⟨s.map, s.binds, s.units ++ [u]⟩ ts
    | none =>
      if s.map.length = maxUnits then
        none
      else
        allocGo maxUnits
          ⟨s.map ++ [(t, s.map.length)], s.binds ++ [t], s.units ++ [s.map.length]⟩ ts

/-! Specification-side characterisation used in the theorem statements:
`firsts ts` is the list of distinct textures of `ts` in first-occurrence
order. -/

def firstsStep (acc : List Nat) (t : Nat) : List Nat :=
  if t ∈ acc then acc else acc ++ [t]

def foldFirsts (acc : List Nat) (ts : List Nat) : List Nat :=
  ts.foldl firstsStep acc

def firsts (ts : List Nat) : List Nat := foldFirsts [] ts

/-- The association list `[(L 0, k), (L 1, k+1), ...]` assigning consecutive
unit indices (from `k`) to the elements of `L`. -/
def mapOfFrom (k : Nat) : List Nat → List (Nat × Nat)
  | [] => []
  | t :: ts => (t, k) :: mapOfFrom (k + 1) ts

def mapOf (L : List Nat) : List (Nat × Nat) := mapOfFrom 0 L

/-! ## Vertex/index buffer reallocation
(`SharedResources::reallocate_vertex_buffer`, lines 393-422) -/

/-- Rust `usize::next_power_of_two`: the least power of two that is `≥ n`
(and `1` for `n = 0`).  Implemented with an explicit fuel so that the
definition is structural; `fuel = n` always suffices because the candidate
doubles at every step. -/
def npotGo (n : Nat) : Nat → Nat → Nat
  | 0, p => p
  | fuel + 1, p => if n ≤ p then p else npotGo n fuel (p * 2)

def nextPowerOfTwo (n : Nat) : Nat := npotGo n n 1

/-- One entry of the regenerated index buffer:
`(x / 6 * 4) as u16 + [0u16, 1, 2, 1, 2, 3][x % 6]`.  The `as u16` cast
wraps modulo `2^16`; the subsequent `u16` addition cannot overflow because
the cast result is a multiple of 4 below `2^16`. -/
def indexEntry (x : Nat) : Nat :=
  x / 6 * 4 % 65536 + [0, 1, 2, 1, 2, 3].getD (x % 6) 0

/-- The regenerated index buffer: `(0..(new_size * 6) as u32)` mapped through
`indexEntry`.  The `as u32` cast wraps modulo `2^32`. -/
def indicesFor (newSize : Nat) : List Nat :=
  (List.range (newSize * 6 % 4294967296)).map indexEntry

/-! ## Shared GPU resources and `draw_sprites` -/

/-- The fields of `SharedResources` that the embedded operations touch.
`buffer_size` is a `u32` (buffer capacity in sprites), `textures` is the
registry of `(TextureId, width, height)` entries, `indice_buffer` holds the
`u16` entries last uploaded to the index buffer. -/
structure SharedRes where
  buffer_size : Nat
  textures : List (Nat × Nat × Nat)
  texture_unit_map : List (Nat × Nat)
  max_texture_units : Nat
  indice_buffer : List Nat
deriving DecidableEq, Repr

/-- `SharedResources::reallocate_vertex_buffer`: set the capacity to
`next_power_of_two(size_need)` (stored in a `u32` field, hence `% 2^32`) and
regenerate the index buffer. -/
def reallocateVertexBuffer (res : SharedRes) (sizeNeed : Nat) : SharedRes :=
  let newSize := nextPowerOfTwo sizeNeed
  { res with
    buffer_size := newSize % 4294967296
    indice_buffer := indicesFor newSize }

/-- Observable outcome of one `draw_sprites` call. -/
structure DrawOutcome where
  res : SharedRes
  reallocated : Bool
  binds : List Nat
  units : List Nat
deriving DecidableEq, Repr

/-- Lines 138-140 of `draw_sprites`: grow the buffer when the batch does not
fit; the `Bool` records whether `reallocate_vertex_buffer` was called. -/
def grownRes (res : SharedRes) (n : Nat) : SharedRes × Bool :=
  if n > res.buffer_size then (reallocateVertexBuffer res n, true) else (res, false)

/-- `GlRenderer::draw_sprites` (lines 125-220), restricted to its effect on
the embedded state: early return on an empty slice, conditional buffer
reallocation, clearing of `texture_unit_map`, and the texture-unit loop.
A sprite is represented by its `TextureId` (the only field the modelled
control flow reads).  `none` models the `unimplemented!` panic. -/
def drawSprites (res : SharedRes) (sprites : List Nat) : Option DrawOutcome :=
  if sprites.isEmpty then
    some ⟨res, false, [], []⟩
  else
    let step := grownRes res sprites.length
    let res1 := { step.1 with texture_unit_map := [] }
    match allocGo res1.max_texture_units ⟨res1.texture_unit_map, [], []⟩ sprites with
    | none => none
    | some st =>
      some ⟨{ res1 with texture_unit_map := st.map }, step.2, st.binds, st.units⟩

/-! ## Lemmas about the specification-side helpers -/

theorem mapGet_nil {α : Type} (t : Nat) : mapGet ([] : List (Nat × α)) t = none := rfl

theorem mapGet_cons {α : Type} (x : Nat) (v : α) (m : List (Nat × α)) (t : Nat) :
    mapGet ((x, v) :: m) t = if x = t then some v else mapGet m t := by
  by_cases h : x = t
  · subst h; simp [mapGet, List.find?]
  · have hb : (x == t) = false := by simp [h]
    simp [mapGet, List.find?, hb, h]

theorem mapOfFrom_length (k : Nat) (L : List Nat) : (mapOfFrom k L).length = L.length := by
  induction L generalizing k with
  | nil => rfl
  | cons x L ih => simp [mapOfFrom, ih]

theorem mapOfFrom_append (k : Nat) (L : List Nat) (t : Nat) :
    mapOfFrom k (L ++ [t]) = mapOfFrom k L ++ [(t, k + L.length)] := by
  induction L generalizing k with
  | nil => simp [mapOfFrom]
  | cons x L ih =>
    simp only [List.cons_append, mapOfFrom, List.length_cons, List.append_eq]
    rw [ih (k + 1)]
    have h1 : k + 1 + L.length = k + (L.length + 1) := by omega
    rw [h1]

theorem mapGet_mapOfFrom (L : List Nat) (t : Nat) :
    ∀ k, mapGet (mapOfFrom k L) t = if t ∈ L then some (k + L.indexOf t) else none := by
  induction L with
  | nil => intro k; simp [mapOfFrom, mapGet_nil]
  | cons x L ih =>
    intro k
    by_cases h : x = t
    · subst h
      simp [mapOfFrom, mapGet_cons, List.indexOf_cons_self]
    · simp only [mapOfFrom, mapGet_cons, if_neg h, ih (k + 1)]
      have hmem : t ∈ x :: L ↔ t ∈ L := by
        constructor
        · intro hh
          rcases List.mem_cons.mp hh with h1 | h1
          · exact absurd h1.symm h
          · exact h1
        · intro hh
          exact List.mem_cons_of_mem _ hh
      by_cases hm : t ∈ L
      · rw [if_pos hm, if_pos (hmem.mpr hm)]
        have : (x :: L).indexOf t = L.indexOf t + 1 := by
          simp [List.indexOf_cons, h]
        rw [this]
        congr 1
        omega
      · rw [if_neg hm, if_neg (fun hh => hm (hmem.mp hh))]

theorem foldFirsts_nil (L : List Nat) : foldFirsts L [] = L := rfl

theorem foldFirsts_cons (L : List Nat) (t : Nat) (ts : List Nat) :
    foldFirsts L (t :: ts) = foldFirsts (firstsStep L t) ts := rfl

theorem foldFirsts_append (L : List Nat) (a b : List Nat) :
    foldFirsts L (a ++ b) = foldFirsts (foldFirsts L a) b := by
  simp [foldFirsts, List.foldl_append]

theorem foldFirsts_exists_suffix (ts : List Nat) :
    ∀ L, ∃ r, foldFirsts L ts = L ++ r := by
  induction ts with
  | nil => intro L; exact ⟨[], by simp [foldFirsts_nil]⟩
  | cons t ts ih =>
    intro L
    rw [foldFirsts_cons]
    by_cases h : t ∈ L
    · simpa [firstsStep, h] using ih L
    · obtain ⟨r, hr⟩ := ih (L ++ [t])
      exact ⟨[t] ++ r, by simp [firstsStep, h, hr]⟩

theorem length_le_foldFirsts (L ts : List Nat) : L.length ≤ (foldFirsts L ts).length := by
  obtain ⟨r, hr⟩ := foldFirsts_exists_suffix ts L
  simp [hr]

theorem indexOf_append_left (L r : List Nat) (t : Nat) (h : t ∈ L) :
    (L ++ r).indexOf t = L.indexOf t := by
  induction L with
  | nil => cases h
  | cons x L ih =>
    by_cases hx : x = t
    · subst hx; simp [List.indexOf_cons_self]
    · rcases List.mem_cons.mp h with h1 | h1
      · exact absurd h1.symm hx
      · simp [List.indexOf_cons, hx, ih h1]

theorem indexOf_append_self (L : List Nat) (t : Nat) (h : t ∉ L) :
    (L ++ [t]).indexOf t = L.length := by
  induction L with
  | nil => simp [List.indexOf_cons_self]
  | cons x L ih =>
    have hx : x ≠ t := fun hh => h (by simp [hh])
    have h2 : t ∉ L := fun hh => h (by simp [hh])
    simp [List.indexOf_cons, hx, ih h2]

theorem indexOf_foldFirsts_of_mem (ts L : List Nat) (t : Nat) (h : t ∈ L) :
    (foldFirsts L ts).indexOf t = L.indexOf t := by
  obtain ⟨r, hr⟩ := foldFirsts_exists_suffix ts L
  rw [hr, indexOf_append_left L r t h]

theorem mem_foldFirsts (ts : List Nat) :
    ∀ L u, u ∈ foldFirsts L ts ↔ u ∈ L ∨ u ∈ ts := by
  induction ts with
  | nil => intro L u; simp [foldFirsts_nil]
  | cons t ts ih =>
    intro L u
    rw [foldFirsts_cons, ih]
    by_cases h : t ∈ L
    · simp only [firstsStep, if_pos h, List.mem_cons]
      constructor
      · rintro (h1 | h1)
        · exact Or.inl h1
        · exact Or.inr (Or.inr h1)
      · rintro (h1 | h1 | h1)
        · exact Or.inl h1
        · exact Or.inl (h1 ▸ h)
        · exact Or.inr h1
    · simp only [firstsStep, if_neg h, List.mem_append, List.mem_singleton, List.mem_cons]
      tauto

theorem foldFirsts_nodup (ts : List Nat) :
    ∀ L, L.Nodup → (foldFirsts L ts).Nodup := by
  induction ts with
  | nil => intro L h; simpa [foldFirsts_nil] using h
  | cons t ts ih =>
    intro L h
    rw [foldFirsts_cons]
    by_cases hm : t ∈ L
    · rw [show firstsStep L t = L from by simp [firstsStep, hm]]
      exact ih L h
    · rw [show firstsStep L t = L ++ [t] from by simp [firstsStep, hm]]
      refine ih (L ++ [t]) ?_
      simp [List.nodup_append, h, hm, List.disjoint_singleton]

/-- Precise description of the texture-unit loop, generalised over an
arbitrary partially-filled state reached during execution. -/
theorem allocGo_spec (maxUnits : Nat) (ts : List Nat) :
    ∀ L B U, L.length ≤ maxUnits →
      allocGo maxUnits ⟨mapOf L, B, U⟩ ts =
        if (foldFirsts L ts).length ≤ maxUnits then
          some ⟨mapOf (foldFirsts L ts),
                B ++ (foldFirsts L ts).drop L.length,
                U ++ ts.map (fun t => (foldFirsts L ts).indexOf t)⟩
        else none := by
  induction ts with
  | nil =>
    intro L B U hL
    simp [allocGo, foldFirsts_nil, hL, List.drop_length]
  | cons t ts ih =>
    intro L B U hL
    rw [foldFirsts_cons]
    by_cases hm : t ∈ L
    · have hget : mapGet (mapOf L) t = some (L.indexOf t) := by
        rw [mapOf, mapGet_mapOfFrom, if_pos hm, Nat.zero_add]
      rw [show allocGo maxUnits ⟨mapOf L, B, U⟩ (t :: ts)
            = allocGo maxUnits ⟨mapOf L, B, U ++ [L.indexOf t]⟩ ts from by
          simp [allocGo, hget]]
      rw [ih L B (U ++ [L.indexOf t]) hL]
      have hstep : firstsStep L t = L := by simp [firstsStep, hm]
      rw [hstep]
      by_cases hc : (foldFirsts L ts).length ≤ maxUnits
      · rw [if_pos hc, if_pos hc]
        have hidx : (foldFirsts L ts).indexOf t = L.indexOf t :=
          indexOf_foldFirsts_of_mem ts L t hm
        simp [hidx]
      · rw [if_neg hc, if_neg hc]
    · have hget : mapGet (mapOf L) t = none := by
        rw [mapOf, mapGet_mapOfFrom, if_neg hm]
      have hstep : firstsStep L t = L ++ [t] := by simp [firstsStep, hm]
      rw [hstep]
      by_cases hfull : L.length = maxUnits
      · have hcond : ¬ (foldFirsts (L ++ [t]) ts).length ≤ maxUnits := by
          have := length_le_foldFirsts (L ++ [t]) ts
          simp only [List.length_append, List.length_singleton] at this
          omega
        rw [show allocGo maxUnits ⟨mapOf L, B, U⟩ (t :: ts) = none from by
          simp only [allocGo, hget]
          rw [show (mapOf L).length = L.length from by rw [mapOf, mapOfFrom_length]]
          rw [if_pos hfull]]
        rw [if_neg hcond]
      · have hlen : (L ++ [t]).length ≤ maxUnits := by
          simp only [List.length_append, List.length_singleton]
          omega
        have hmap : mapOf L ++ [(t, L.length)] = mapOf (L ++ [t]) := by
          rw [mapOf, mapOf, mapOfFrom_append, Nat.zero_add]
        rw [show allocGo maxUnits ⟨mapOf L, B, U⟩ (t :: ts)
              = allocGo maxUnits ⟨mapOf (L ++ [t]), B ++ [t], U ++ [L.length]⟩ ts from by
            simp only [allocGo, hget]
            rw [show (mapOf L).length = L.length from by rw [mapOf, mapOfFrom_length]]
            rw [if_neg hfull, hmap]]
        rw [ih (L ++ [t]) (B ++ [t]) (U ++ [L.length]) hlen]
        by_cases hc : (foldFirsts (L ++ [t]) ts).length ≤ maxUnits
        · rw [if_pos hc, if_pos hc]
          obtain ⟨r, hr⟩ := foldFirsts_exists_suffix ts (L ++ [t])
          have hdrop1 : (foldFirsts (L ++ [t]) ts).drop L.length = [t] ++ r := by
            rw [hr, List.append_assoc, List.drop_left]
          have hdrop2 : (foldFirsts (L ++ [t]) ts).drop (L.length + 1) = r := by
            have hl2 : L.length + 1 = (L ++ [t]).length := by simp
            rw [hr, hl2, List.drop_left]
          have hidx : (foldFirsts (L ++ [t]) ts).indexOf t = L.length := by
            rw [indexOf_foldFirsts_of_mem ts (L ++ [t]) t (by simp),
              indexOf_append_self L t hm]
          simp [hdrop1, hdrop2, hidx]
        · rw [if_neg hc, if_neg hc]

/-- The loop starting from a cleared map. -/
theorem allocGo_cleared (maxUnits : Nat) (ts : List Nat) :
    allocGo maxUnits ⟨[], [], []⟩ ts =
      if (firsts ts).length ≤ maxUnits then
        some ⟨mapOf (firsts ts), firsts ts,
              ts.map (fun t => (firsts ts).indexOf t)⟩
      else none := by
  have h := allocGo_spec maxUnits ts [] [] [] (Nat.zero_le _)
  simpa [mapOf, mapOfFrom, firsts] using h

theorem firsts_length_eq_card (ts : List Nat) :
    (firsts ts).length = ts.toFinset.card := by
  have hnd : (firsts ts).Nodup := foldFirsts_nodup ts [] List.nodup_nil
  have hset : (firsts ts).toFinset = ts.toFinset := by
    ext u
    simp [List.mem_toFinset, firsts, mem_foldFirsts]
  rw [← hset, List.toFinset_card_of_nodup hnd]

/-! ## Lemmas about `nextPowerOfTwo` -/

theorem npotGo_ge (n : Nat) : ∀ fuel p, n ≤ p * 2 ^ fuel → n ≤ npotGo n fuel p := by
  intro fuel
  induction fuel with
  | zero => intro p h; simpa [npotGo] using h
  | succ f ih =>
    intro p h
    by_cases hp : n ≤ p
    · simp [npotGo, hp]
    · simp only [npotGo, if_neg hp]
      refine ih (p * 2) ?_
      calc n ≤ p * 2 ^ (f + 1) := h
        _ = p * 2 * 2 ^ f := by ring

theorem nextPowerOfTwo_ge (n : Nat) : n ≤ nextPowerOfTwo n := by
  refine npotGo_ge n n 1 ?_
  simpa using Nat.le_of_lt (Nat.lt_two_pow n)

theorem npotGo_pow (n : Nat) : ∀ fuel p, (∃ j, p = 2 ^ j) → ∃ k, npotGo n fuel p = 2 ^ k := by
  intro fuel
  induction fuel with
  | zero => intro p h; simpa [npotGo] using h
  | succ f ih =>
    intro p h
    obtain ⟨j, hj⟩ := h
    by_cases hp : n ≤ p
    · refine ⟨j, ?_⟩
      simp only [npotGo, if_pos hp]
      exact hj
    · simp only [npotGo, if_neg hp]
      exact ih (p * 2) ⟨j + 1, by rw [hj, pow_succ]⟩

theorem nextPowerOfTwo_pow (n : Nat) : ∃ k, nextPowerOfTwo n = 2 ^ k :=
  npotGo_pow n n 1 ⟨0, rfl⟩

theorem npotGo_min (n : Nat) :
    ∀ fuel p j, p = 2 ^ j → (∀ i, i < j → ¬ n ≤ 2 ^ i) →
      ∀ m, n ≤ 2 ^ m → npotGo n fuel p ≤ 2 ^ m := by
  intro fuel
  induction fuel with
  | zero =>
    intro p j hp hmin m hm
    have hjm : j ≤ m := by
      by_contra hc
      exact hmin m (by omega) hm
    simpa [npotGo, hp] using Nat.pow_le_pow_right (by norm_num) hjm
  | succ f ih =>
    intro p j hp hmin m hm
    by_cases hnp : n ≤ p
    · have hjm : j ≤ m := by
        by_contra hc
        exact hmin m (by omega) hm
      simp only [npotGo, if_pos hnp]
      exact hp ▸ Nat.pow_le_pow_right (by norm_num) hjm
    · simp only [npotGo, if_neg hnp]
      refine ih (p * 2) (j + 1) (by rw [hp, pow_succ]) ?_ m hm
      intro i hi
      rcases Nat.lt_succ_iff_lt_or_eq.mp hi with h1 | h1
      · exact hmin i h1
      · subst h1
        rw [← hp]
        exact hnp

theorem nextPowerOfTwo_min (n m : Nat) (h : n ≤ 2 ^ m) : nextPowerOfTwo n ≤ 2 ^ m := by
  refine npotGo_min n n 1 0 rfl ?_ m h
  intro i hi
  exact absurd hi (Nat.not_lt_zero i)

/-! ## The panic point when the unit budget is exceeded -/

theorem foldFirsts_crossing (maxUnits : Nat) :
    ∀ (ts L : List Nat), L.length ≤ maxUnits → maxUnits < (foldFirsts L ts).length →
      ∃ i t, ts.get? i = some t ∧
        (foldFirsts L (ts.take i)).length = maxUnits ∧
        t ∉ foldFirsts L (ts.take i) := by
  intro ts
  induction ts with
  | nil =>
    intro L h1 h2
    rw [foldFirsts_nil] at h2
    omega
  | cons t ts ih =>
    intro L h1 h2
    rw [foldFirsts_cons] at h2
    by_cases hc : (firstsStep L t).length ≤ maxUnits
    · obtain ⟨i, u, hget, hlen, hmem⟩ := ih (firstsStep L t) hc h2
      refine ⟨i + 1, u, by simpa using hget, ?_, ?_⟩
      · rw [show (t :: ts).take (i + 1) = t :: ts.take i from rfl, foldFirsts_cons]
        exact hlen
      · rw [show (t :: ts).take (i + 1) = t :: ts.take i from rfl, foldFirsts_cons]
        exact hmem
    · have hnm : t ∉ L := by
        intro hm
        exact hc (by simpa [firstsStep, hm] using h1)
      have hLfull : L.length = maxUnits := by
        have : (firstsStep L t).length = L.length + 1 := by simp [firstsStep, hnm]
        omega
      exact ⟨0, t, rfl, by simpa [foldFirsts_nil] using hLfull,
        by simpa [foldFirsts_nil] using hnm⟩

/-! ## Characterisation of `drawSprites` -/

theorem grownRes_max (res : SharedRes) (n : Nat) :
    (grownRes res n).1.max_texture_units = res.max_texture_units := by
  unfold grownRes reallocateVertexBuffer
  split <;> rfl

theorem grownRes_textures (res : SharedRes) (n : Nat) :
    (grownRes res n).1.textures = res.textures := by
  unfold grownRes reallocateVertexBuffer
  split <;> rfl

theorem drawSprites_eq (res : SharedRes) (sprites : List Nat) (h : sprites ≠ []) :
    drawSprites res sprites =
      if (firsts sprites).length ≤ res.max_texture_units then
        some ⟨{ (grownRes res sprites.length).1 with
                  texture_unit_map := mapOf (firsts sprites) },
              (grownRes res sprites.length).2,
              firsts sprites,
              sprites.map (fun t => (firsts sprites).indexOf t)⟩
      else none := by
  unfold drawSprites
  rw [if_neg (by simpa [List.isEmpty_iff] using h)]
  show (match allocGo (grownRes res sprites.length).1.max_texture_units
          (⟨[], [], []⟩ : AllocState) sprites with
    | none => (none : Option DrawOutcome)
    | some st =>
      some (⟨{ (grownRes res sprites.length).1 with texture_unit_map := st.map },
            (grownRes res sprites.length).2, st.binds, st.units⟩ : DrawOutcome)) = _
  rw [grownRes_max, allocGo_cleared]
  by_cases hc : (firsts sprites).length ≤ res.max_texture_units
  · rw [if_pos hc, if_pos hc]
  · rw [if_neg hc, if_neg hc]

/-- The unit index recorded for a texture equals the number of distinct
textures seen strictly before its first occurrence. -/
theorem indexOf_firsts_first_occ (sprites : List Nat) (i t : Nat)
    (hget : sprites.get? i = some t) (hnot : t ∉ sprites.take i) :
    (firsts sprites).indexOf t = (firsts (sprites.take i)).length := by
  obtain ⟨hi, hgeteq⟩ := List.get?_eq_some.mp hget
  have hsplit : sprites = sprites.take i ++ t :: sprites.drop (i + 1) := by
    conv_lhs => rw [← List.take_append_drop i sprites]
    congr 1
    rw [List.drop_eq_get_cons hi, hgeteq]
  have htF : t ∉ firsts (sprites.take i) := by
    intro hm
    rcases (mem_foldFirsts (sprites.take i) [] t).mp hm with h1 | h1
    · cases h1
    · exact hnot h1
  have h1 : firsts sprites
      = foldFirsts (firsts (sprites.take i) ++ [t]) (sprites.drop (i + 1)) := by
    rw [firsts]
    conv_lhs => rw [hsplit]
    rw [foldFirsts_append, foldFirsts_cons]
    rw [show firstsStep (foldFirsts [] (sprites.take i)) t
          = firsts (sprites.take i) ++ [t] from by
      rw [show foldFirsts [] (sprites.take i) = firsts (sprites.take i) from rfl]
      simp [firstsStep, htF]]
  rw [h1, indexOf_foldFirsts_of_mem _ _ t (by simp),
    indexOf_append_self _ t htF]

/-- Lemma for the `grownRes` step: the incoming `texture_unit_map` has no
influence on any field that survives the `draw_sprites` call. -/
theorem grownRes_map_update (res : SharedRes) (m : List (Nat × Nat)) (n : Nat)
    (X : List (Nat × Nat)) :
    ({ (grownRes { res with texture_unit_map := m } n).1 with
        texture_unit_map := X } : SharedRes)
        = { (grownRes res n).1 with texture_unit_map := X }
      ∧ (grownRes { res with texture_unit_map := m } n).2 = (grownRes res n).2 := by
  obtain ⟨bs, tex, tum, mtu, ib⟩ := res
  by_cases hgt : n > bs <;>
    simp [grownRes, reallocateVertexBuffer, hgt]

/-- C1: for a non-empty sprite slice referencing `K` distinct textures with
`K ≤ max_texture_units`, `draw_sprites` succeeds; the texture-unit map is
rebuilt from empty (the outcome does not depend on the incoming
`texture_unit_map`, which is cleared at the start of the call); exactly `K`
bind operations occur, one per distinct texture in first-seen order; each
distinct texture gets the unit index equal to the number of distinct textures
seen before its first occurrence in slice order; and every sprite is written
with the unit assigned to its texture, so later sprites sharing a texture
reuse the same unit. -/
theorem c1_texture_unit_allocation (res : SharedRes) (sprites : List Nat)
    (hne : sprites ≠ []) (hK : sprites.toFinset.card ≤ res.max_texture_units) :
    ∃ out, drawSprites res sprites = some out ∧
      (∀ m, drawSprites { res with texture_unit_map := m } sprites = some out) ∧
      out.binds = firsts sprites ∧
      out.binds.length = sprites.toFinset.card ∧
      out.binds.Nodup ∧
      (∀ t, t ∈ out.binds ↔ t ∈ sprites) ∧
      (∀ i t, sprites.get? i = some t → t ∉ sprites.take i →
        out.units.get? i = some (firsts (sprites.take i)).length) ∧
      (∀ t, t ∈ sprites →
        mapGet out.res.texture_unit_map t = some ((firsts sprites).indexOf t)) ∧
      out.units = sprites.map (fun t => (firsts sprites).indexOf t) := by
  have hc : (firsts sprites).length ≤ res.max_texture_units := by
    rw [firsts_length_eq_card]
    exact hK
  have hmain : drawSprites res sprites
      = some ⟨{ (grownRes res sprites.length).1 with
                  texture_unit_map := mapOf (firsts sprites) },
              (grownRes res sprites.length).2,
              firsts sprites,
              sprites.map (fun t => (firsts sprites).indexOf t)⟩ := by
    rw [drawSprites_eq res sprites hne, if_pos hc]
  refine ⟨_, hmain, ?_, rfl, ?_, ?_, ?_, ?_, ?_, rfl⟩
  · intro m
    rw [drawSprites_eq { res with texture_unit_map := m } sprites hne]
    have hcm : (firsts sprites).length
        ≤ ({ res with texture_unit_map := m } : SharedRes).max_texture_units := hc
    rw [if_pos hcm,
      (grownRes_map_update res m sprites.length (mapOf (firsts sprites))).1,
      (grownRes_map_update res m sprites.length (mapOf (firsts sprites))).2]
  · rw [firsts_length_eq_card]
  · exact foldFirsts_nodup sprites [] List.nodup_nil
  · intro t
    rw [show (firsts sprites) = foldFirsts [] sprites from rfl, mem_foldFirsts]
    simp
  · intro i t hget hnot
    rw [show (⟨{ (grownRes res sprites.length).1 with
            texture_unit_map := mapOf (firsts sprites) },
          (grownRes res sprites.length).2, firsts sprites,
          sprites.map (fun t => (firsts sprites).indexOf t)⟩ : DrawOutcome).units
        = sprites.map (fun t => (firsts sprites).indexOf t) from rfl]
    rw [List.get?_map, hget, Option.map_some']
    rw [indexOf_firsts_first_occ sprites i t hget hnot]
  · intro t ht
    have htf : t ∈ firsts sprites := by
      rw [show (firsts sprites) = foldFirsts [] sprites from rfl, mem_foldFirsts]
      exact Or.inr ht
    rw [show (⟨{ (grownRes res sprites.length).1 with
            texture_unit_map := mapOf (firsts sprites) },
          (grownRes res sprites.length).2, firsts sprites,
          sprites.map (fun t => (firsts sprites).indexOf t)⟩ : DrawOutcome).res.texture_unit_map
        = mapOf (firsts sprites) from rfl]
    rw [mapOf, mapGet_mapOfFrom, if_pos htf, Nat.zero_add]

/-- Witness for C1 at a concrete input: three sprites over two distinct
textures on a renderer with 16 texture units. -/
theorem c1_texture_unit_allocation_witness :
    ∃ out, drawSprites ⟨0, [], [], 16, []⟩ [5, 7, 5] = some out ∧
      (∀ m, drawSprites { (⟨0, [], [], 16, []⟩ : SharedRes) with
          texture_unit_map := m } [5, 7, 5] = some out) ∧
      out.binds = firsts [5, 7, 5] ∧
      out.binds.length = [5, 7, 5].toFinset.card ∧
      out.binds.Nodup ∧
      (∀ t, t ∈ out.binds ↔ t ∈ [5, 7, 5]) ∧
      (∀ i t, [5, 7, 5].get? i = some t → t ∉ [5, 7, 5].take i →
        out.units.get? i = some (firsts ([5, 7, 5].take i)).length) ∧
      (∀ t, t ∈ [5, 7, 5] →
        mapGet out.res.texture_unit_map t = some ((firsts [5, 7, 5]).indexOf t)) ∧
      out.units = [5, 7, 5].map (fun t => (firsts [5, 7, 5]).indexOf t) :=
  c1_texture_unit_allocation ⟨0, [], [], 16, []⟩ [5, 7, 5] (by decide) (by decide)

/-- C2: when the sprite slice references strictly more distinct textures than
`max_texture_units`, `draw_sprites` panics (the `unimplemented!` branch,
modelled by `none`): no outcome is produced, so no texture is dropped or
mis-assigned.  The panic fires exactly when the first texture beyond the unit
budget is reached: there is a sprite index `i` whose texture is new while the
map already holds `max_texture_units` entries, the loop runs without panic on
the prefix before `i`, and panics on the prefix including `i`. -/
theorem c2_texture_unit_overflow_panics (res : SharedRes) (sprites : List Nat)
    (hK : res.max_texture_units < sprites.toFinset.card) :
    drawSprites res sprites = none ∧
    ∃ i t, sprites.get? i = some t ∧
      (firsts (sprites.take i)).length = res.max_texture_units ∧
      t ∉ firsts (sprites.take i) ∧
      allocGo res.max_texture_units ⟨[], [], []⟩ (sprites.take i) ≠ none ∧
      allocGo res.max_texture_units ⟨[], [], []⟩ (sprites.take (i + 1)) = none := by
  have hlen : res.max_texture_units < (firsts sprites).length := by
    rw [firsts_length_eq_card]
    exact hK
  have hne : sprites ≠ [] := by
    intro h
    subst h
    simp [firsts, foldFirsts_nil] at hlen
  have hnot : ¬ (firsts sprites).length ≤ res.max_texture_units := by omega
  refine ⟨by rw [drawSprites_eq res sprites hne, if_neg hnot], ?_⟩
  obtain ⟨i, t, hget, htake0, hmem0⟩ :=
    foldFirsts_crossing res.max_texture_units sprites [] (Nat.zero_le _) hlen
  have htake : (firsts (sprites.take i)).length = res.max_texture_units := htake0
  have hmem : t ∉ firsts (sprites.take i) := hmem0
  refine ⟨i, t, hget, htake, hmem, ?_, ?_⟩
  · rw [allocGo_cleared, if_pos (le_of_eq htake)]
    simp
  · have hgete : sprites[i]? = some t := by
      rw [← List.get?_eq_getElem?]
      exact hget
    have hsucc : sprites.take (i + 1) = sprites.take i ++ [t] := by
      rw [List.take_succ, hgete]
      rfl
    have hfst : firsts (sprites.take (i + 1)) = firsts (sprites.take i) ++ [t] := by
      rw [hsucc, firsts, firsts, foldFirsts_append, foldFirsts_cons, foldFirsts_nil]
      simp [firstsStep, hmem0]
    rw [allocGo_cleared, if_neg ?_]
    rw [hfst]
    simp only [List.length_append, List.length_singleton]
    omega

/-- Witness for C2: two distinct textures on a single-unit renderer; the
panic fires at slice index 1. -/
theorem c2_texture_unit_overflow_panics_witness :
    drawSprites ⟨0, [], [], 1, []⟩ [5, 7] = none ∧
    ∃ i t, [5, 7].get? i = some t ∧
      (firsts ([5, 7].take i)).length = (1 : Nat) ∧
      t ∉ firsts ([5, 7].take i) ∧
      allocGo 1 ⟨[], [], []⟩ ([5, 7].take i) ≠ none ∧
      allocGo 1 ⟨[], [], []⟩ ([5, 7].take (i + 1)) = none :=
  c2_texture_unit_overflow_panics ⟨0, [], [], 1, []⟩ [5, 7] (by decide)

theorem indicesFor_length (N : Nat) :
    (indicesFor N).length = N * 6 % 4294967296 := by
  simp [indicesFor]

theorem indicesFor_get (N x : Nat) (h : x < N * 6 % 4294967296) :
    (indicesFor N).get? x
      = some (x / 6 * 4 % 65536 + [0, 1, 2, 1, 2, 3].getD (x % 6) 0) := by
  rw [indicesFor, List.get?_map, List.get?_range h, Option.map_some']
  rfl

theorem foldFirsts_replicate (a : Nat) (L : List Nat) (hm : a ∈ L) :
    ∀ n, foldFirsts L (List.replicate n a) = L := by
  intro n
  induction n with
  | zero => rfl
  | succ k ih =>
    rw [List.replicate_succ, foldFirsts_cons,
      show firstsStep L a = L from by simp [firstsStep, hm]]
    exact ih

theorem firsts_replicate_succ (a : Nat) (n : Nat) :
    firsts (List.replicate (n + 1) a) = [a] := by
  rw [firsts, List.replicate_succ, foldFirsts_cons,
    show firstsStep [] a = [a] from by simp [firstsStep]]
  exact foldFirsts_replicate a [a] (by simp) n

/-- C3 (amended): for a non-empty batch of `S` sprites, `draw_sprites`
reallocates iff `S` exceeds the current `buffer_size`; on reallocation the
stored capacity is `next_power_of_two(S)` reduced modulo `2^32` (the field is
a `u32`), where `next_power_of_two(S)` is the least power of two `≥ S`, and
the regenerated index buffer has `next_power_of_two(S)*6 % 2^32` entries with
entry `x` equal to `4*(x/6) mod 2^16 + [0,1,2,1,2,3][x mod 6]` (the code
computes the offset in `u16`); without reallocation the buffer is untouched;
and a call whose batch already fits does not reallocate, nor does an
immediately repeated identical call. -/
theorem c3_buffer_growth_amended (res : SharedRes) (sprites : List Nat)
    (out : DrawOutcome) (hne : sprites ≠ [])
    (hsome : drawSprites res sprites = some out) :
    ((out.reallocated = true) ↔ res.buffer_size < sprites.length) ∧
    (out.reallocated = true →
      out.res.buffer_size = nextPowerOfTwo sprites.length % 4294967296 ∧
      (∃ k, nextPowerOfTwo sprites.length = 2 ^ k) ∧
      sprites.length ≤ nextPowerOfTwo sprites.length ∧
      (∀ m, sprites.length ≤ 2 ^ m → nextPowerOfTwo sprites.length ≤ 2 ^ m) ∧
      out.res.indice_buffer.length = nextPowerOfTwo sprites.length * 6 % 4294967296 ∧
      (∀ x, x < out.res.indice_buffer.length →
        out.res.indice_buffer.get? x
          = some (x / 6 * 4 % 65536 + [0, 1, 2, 1, 2, 3].getD (x % 6) 0))) ∧
    (out.reallocated = false →
      out.res.buffer_size = res.buffer_size ∧
      out.res.indice_buffer = res.indice_buffer) ∧
    (sprites.length ≤ res.buffer_size →
      out.reallocated = false ∧
      ∃ out2, drawSprites out.res sprites = some out2 ∧ out2.reallocated = false) := by
  have hcond : (firsts sprites).length ≤ res.max_texture_units := by
    by_contra hcond
    rw [drawSprites_eq res sprites hne, if_neg hcond] at hsome
    cases hsome
  rw [drawSprites_eq res sprites hne, if_pos hcond] at hsome
  injection hsome with hout
  subst hout
  by_cases hgt : sprites.length > res.buffer_size
  · have hg : grownRes res sprites.length
        = (reallocateVertexBuffer res sprites.length, true) := by
      simp [grownRes, hgt]
    rw [hg]
    refine ⟨by simpa using hgt, ?_, ?_, ?_⟩
    · intro _
      refine ⟨rfl, nextPowerOfTwo_pow sprites.length, nextPowerOfTwo_ge sprites.length,
        fun m hm => nextPowerOfTwo_min sprites.length m hm, ?_, ?_⟩
      · exact indicesFor_length (nextPowerOfTwo sprites.length)
      · intro x hx
        rw [show (⟨{ reallocateVertexBuffer res sprites.length with
              texture_unit_map := mapOf (firsts sprites) },
            true, firsts sprites,
            sprites.map (fun t => (firsts sprites).indexOf t)⟩ : DrawOutcome).res.indice_buffer
            = indicesFor (nextPowerOfTwo sprites.length) from rfl] at hx ⊢
        exact indicesFor_get (nextPowerOfTwo sprites.length) x
          (by rwa [indicesFor_length] at hx)
    · intro hfalse
      cases hfalse
    · intro hle
      omega
  · have hg : grownRes res sprites.length = (res, false) := by
      simp [grownRes, hgt]
    rw [hg]
    refine ⟨by simpa using hgt, ?_, fun _ => ⟨rfl, rfl⟩, ?_⟩
    · intro htrue
      cases htrue
    · intro hle
      refine ⟨rfl, ?_⟩
      have hne2 := hne
      rw [drawSprites_eq { res with texture_unit_map := mapOf (firsts sprites) }
        sprites hne2]
      have hcond2 : (firsts sprites).length
          ≤ ({ res with texture_unit_map := mapOf (firsts sprites) }
              : SharedRes).max_texture_units := hcond
      rw [if_pos hcond2]
      have hg2 : grownRes { res with texture_unit_map := mapOf (firsts sprites) }
          sprites.length
          = ({ res with texture_unit_map := mapOf (firsts sprites) }, false) := by
        simp [grownRes]
        omega
      rw [hg2]
      exact ⟨_, rfl, rfl⟩

/-- Witness for C3 at a concrete input: one sprite drawn with an empty
buffer grows the capacity to 1 and writes the six-entry quad index pattern. -/
theorem c3_buffer_growth_amended_witness :
    (((⟨⟨1, [], [(3, 0)], 16, [0, 1, 2, 1, 2, 3]⟩, true, [3], [0]⟩ :
        DrawOutcome).reallocated = true) ↔
      (⟨0, [], [], 16, []⟩ : SharedRes).buffer_size < [3].length) ∧
    ((⟨⟨1, [], [(3, 0)], 16, [0, 1, 2, 1, 2, 3]⟩, true, [3], [0]⟩ :
        DrawOutcome).reallocated = true →
      (⟨⟨1, [], [(3, 0)], 16, [0, 1, 2, 1, 2, 3]⟩, true, [3], [0]⟩ :
          DrawOutcome).res.buffer_size = nextPowerOfTwo [3].length % 4294967296 ∧
      (∃ k, nextPowerOfTwo [3].length = 2 ^ k) ∧
      [3].length ≤ nextPowerOfTwo [3].length ∧
      (∀ m, [3].length ≤ 2 ^ m → nextPowerOfTwo [3].length ≤ 2 ^ m) ∧
      (⟨⟨1, [], [(3, 0)], 16, [0, 1, 2, 1, 2, 3]⟩, true, [3], [0]⟩ :
          DrawOutcome).res.indice_buffer.length
        = nextPowerOfTwo [3].length * 6 % 4294967296 ∧
      (∀ x, x < (⟨⟨1, [], [(3, 0)], 16, [0, 1, 2, 1, 2, 3]⟩, true, [3], [0]⟩ :
          DrawOutcome).res.indice_buffer.length →
        (⟨⟨1, [], [(3, 0)], 16, [0, 1, 2, 1, 2, 3]⟩, true, [3], [0]⟩ :
            DrawOutcome).res.indice_buffer.get? x
          = some (x / 6 * 4 % 65536 + [0, 1, 2, 1, 2, 3].getD (x % 6) 0))) ∧
    ((⟨⟨1, [], [(3, 0)], 16, [0, 1, 2, 1, 2, 3]⟩, true, [3], [0]⟩ :
        DrawOutcome).reallocated = false →
      (⟨⟨1, [], [(3, 0)], 16, [0, 1, 2, 1, 2, 3]⟩, true, [3], [0]⟩ :
          DrawOutcome).res.buffer_size = (⟨0, [], [], 16, []⟩ : SharedRes).buffer_size ∧
      (⟨⟨1, [], [(3, 0)], 16, [0, 1, 2, 1, 2, 3]⟩, true, [3], [0]⟩ :
          DrawOutcome).res.indice_buffer
        = (⟨0, [], [], 16, []⟩ : SharedRes).indice_buffer) ∧
    ([3].length ≤ (⟨0, [], [], 16, []⟩ : SharedRes).buffer_size →
      (⟨⟨1, [], [(3, 0)], 16, [0, 1, 2, 1, 2, 3]⟩, true, [3], [0]⟩ :
          DrawOutcome).reallocated = false ∧
      ∃ out2, drawSprites (⟨⟨1, [], [(3, 0)], 16, [0, 1, 2, 1, 2, 3]⟩, true, [3], [0]⟩ :
          DrawOutcome).res [3] = some out2 ∧ out2.reallocated = false) :=
  c3_buffer_growth_amended ⟨0, [], [], 16, []⟩ [3]
    ⟨⟨1, [], [(3, 0)], 16, [0, 1, 2, 1, 2, 3]⟩, true, [3], [0]⟩
    (by decide) (by decide)

/-- Counterexample to C3 as stated: for a batch of 16385 sprites the buffer
grows to 32768 and index-buffer entry 98304 is computed in `u16`, so it is 0,
not the claimed `4*(98304/6) + 0 = 65536`. -/
theorem c3_index_pattern_counterexample :
    (drawSprites ⟨0, [], [], 16, []⟩ (List.replicate 16385 0)).map
        (fun out => (out.reallocated, out.res.indice_buffer.get? 98304))
      = some (true, some 0) ∧
    4 * (98304 / 6) + [0, 1, 2, 1, 2, 3].getD (98304 % 6) 0 = 65536 ∧
    (0 : Nat) ≠ 65536 := by
  have hlen : (List.replicate 16385 0).length = 16385 := List.length_replicate 16385 0
  have hne : List.replicate 16385 0 ≠ ([] : List Nat) := by
    intro h
    rw [h] at hlen
    exact absurd hlen (by norm_num)
  have hfst : firsts (List.replicate 16385 0) = [0] := firsts_replicate_succ 0 16384
  refine ⟨?_, by norm_num, by norm_num⟩
  rw [drawSprites_eq _ _ hne, hfst]
  rw [if_pos (by norm_num :
    ([0] : List Nat).length ≤ (⟨0, [], [], 16, []⟩ : SharedRes).max_texture_units)]
  rw [hlen]
  have hg : grownRes (⟨0, [], [], 16, []⟩ : SharedRes) 16385
      = (reallocateVertexBuffer ⟨0, [], [], 16, []⟩ 16385, true) := by
    simp [grownRes]
  rw [hg, Option.map_some']
  have hnpot : nextPowerOfTwo 16385 = 32768 := by decide
  have hbuf : (reallocateVertexBuffer (⟨0, [], [], 16, []⟩ : SharedRes) 16385).indice_buffer
      = indicesFor 32768 := by
    rw [reallocateVertexBuffer, hnpot]
  have hget : (indicesFor 32768).get? 98304 = some 0 := by
    rw [indicesFor_get 32768 98304 (by norm_num)]
    norm_num
  simp only [hbuf, hget]

/-! ## Texture registry operations
(`GlSpriteRender::new_texture`, `update_texture`, `resize_texture`)

The registry is the `textures : Vec<(TextureId, u32, u32)>` field of
`SharedResources`.  Pixel data only matters through its length, so `data` is
modelled as `Option Nat` (its length, a `usize`).  The pair
`(new shared state, result)` mirrors the `&mut self` mutation plus return
value; the outer `Option` in `updateTexture` models the `unwrap` panic. -/

/-- The `TextureError` variants referenced by `opengl.rs` (the enum is
declared in the crate root). -/
inductive TextureError where
  | rendererContextDontExist
  | invalidLength
deriving DecidableEq, Repr

/-- `GlSpriteRender::new_texture` (lines 929-990): fails when no context
exists; with data, fails when `data.len() as u32 != width * height * 4`
(`u32` arithmetic, hence the `% 2^32`); on success appends
`(id, width, height)` to the registry.  The fresh GL texture name is the
`newId` argument. -/
def newTexture (shared : Option SharedRes) (width height : Nat)
    (dataLen : Option Nat) (newId : Nat) :
    Option SharedRes × Except TextureError Nat :=
  match shared with
  | none => (none, .error .rendererContextDontExist)
  | some res =>
    match dataLen with
    | some len =>
      if len % 4294967296 ≠ width * height * 4 % 4294967296 then
        (some res, .error .invalidLength)
      else
        (some { res with textures := res.textures ++ [(newId, width, height)] },
         .ok newId)
    | none =>
      (some { res with textures := res.textures ++ [(newId, width, height)] },
       .ok newId)

/-- `GlSpriteRender::update_texture` (lines 992-1049).  The registry lookup
inside `sub_rect.unwrap_or({ ... })` is evaluated eagerly in Rust, so the
`unwrap` panics for an unknown id even when `sub_rect` is supplied.  The
expected length is `(rect[2] * rect[3] * 4) as usize` computed in `u32`
(hence `% 2^32`), compared against the unwrapped `usize` length. -/
def updateTexture (shared : Option SharedRes) (texture : Nat)
    (dataLen : Option Nat) (subRect : Option (Nat × Nat × Nat × Nat)) :
    Option (Option SharedRes × Except TextureError Unit) :=
  match shared with
  | none => some (none, .error .rendererContextDontExist)
  | some res =>
    match res.textures.find? (fun e => e.1 == texture) with
    | none => none
    | some e =>
      let rect := subRect.getD (0, 0, e.2.1, e.2.2)
      let expectedLen := rect.2.2.1 * rect.2.2.2 * 4 % 4294967296
      match dataLen with
      | some len =>
        if len ≠ expectedLen then some (some res, .error .invalidLength)
        else some (some res, .ok ())
      | none => some (some res, .ok ())

/-- `GlSpriteRender::resize_texture` (lines 1051-1092): fails when no context
exists; with data, fails when `data.len() as u32 != width * height * 4`;
otherwise re-uploads the texture storage.  The registry (`res.textures`) is
not touched on any path — the returned state is the input state. -/
def resizeTexture (shared : Option SharedRes) (_texture width height : Nat)
    (dataLen : Option Nat) : Option SharedRes × Except TextureError Unit :=
  match shared with
  | none => (none, .error .rendererContextDontExist)
  | some res =>
    match dataLen with
    | some len =>
      if len % 4294967296 ≠ width * height * 4 % 4294967296 then
        (some res, .error .invalidLength)
      else (some res, .ok ())
    | none => (some res, .ok ())

/-- C5 (code bug): create a 1×1 texture with id 7, then resize it to 2×2.
`resize_texture` succeeds but the registry entry still records dimensions
(1, 1), not (2, 2) — `resize_texture` never updates `res.textures`, so a
subsequent full-texture `update_texture` would default to the stale size. -/
theorem c5_resize_texture_registry_stale :
    (newTexture (some ⟨0, [], [], 16, []⟩) 1 1 none 7).1
      = some ⟨0, [(7, 1, 1)], [], 16, []⟩ ∧
    resizeTexture (some ⟨0, [(7, 1, 1)], [], 16, []⟩) 7 2 2 none
      = (some ⟨0, [(7, 1, 1)], [], 16, []⟩, Except.ok ()) ∧
    (⟨0, [(7, 1, 1)], [], 16, []⟩ : SharedRes).textures.find?
        (fun e => e.1 == 7) = some (7, 1, 1) ∧
    ((7, 1, 1) : Nat × Nat × Nat) ≠ (7, 2, 2) := by
  refine ⟨rfl, rfl, rfl, by decide⟩

/-- C6 (amended): `new_texture` returns `RendererContextDontExist` exactly
when no shared resources exist; with data it returns `InvalidLength` iff the
data length differs from `width*height*4` as `u32` values (modulo `2^32`; for
products below `2^32` this is plain inequality); every error path leaves the
registry unchanged, and success appends `(id, width, height)`. -/
theorem c6_new_texture_errors_amended (shared : Option SharedRes)
    (width height : Nat) (dataLen : Option Nat) (newId : Nat) :
    (shared = none →
      newTexture shared width height dataLen newId
        = (none, Except.error TextureError.rendererContextDontExist)) ∧
    (∀ res, shared = some res →
      (∀ len, dataLen = some len →
        ((newTexture shared width height dataLen newId).2
            = Except.error TextureError.invalidLength
          ↔ len % 4294967296 ≠ width * height * 4 % 4294967296)) ∧
      (∀ len, dataLen = some len → len < 4294967296 →
        width * height * 4 < 4294967296 →
        ((newTexture shared width height dataLen newId).2
            = Except.error TextureError.invalidLength
          ↔ len ≠ width * height * 4)) ∧
      (∀ e, (newTexture shared width height dataLen newId).2 = Except.error e →
        (newTexture shared width height dataLen newId).1 = some res) ∧
      ((newTexture shared width height dataLen newId).2 = Except.ok newId →
        (newTexture shared width height dataLen newId).1
          = some { res with
              textures := res.textures ++ [(newId, width, height)] })) := by
  constructor
  · intro h
    subst h
    rfl
  · intro res h
    subst h
    have hiff : ∀ len, dataLen = some len →
        ((newTexture (some res) width height dataLen newId).2
            = Except.error TextureError.invalidLength
          ↔ len % 4294967296 ≠ width * height * 4 % 4294967296) := by
      intro len hl
      subst hl
      by_cases hlen : len % 4294967296 ≠ width * height * 4 % 4294967296
      · simp [newTexture, hlen]
      · simp [newTexture, hlen]
    refine ⟨hiff, ?_, ?_, ?_⟩
    · intro len hl hs1 hs2
      rw [hiff len hl, Nat.mod_eq_of_lt hs1, Nat.mod_eq_of_lt hs2]
    · intro e he
      cases dataLen with
      | none => simp [newTexture] at he
      | some len =>
        by_cases hlen : len % 4294967296 ≠ width * height * 4 % 4294967296
        · simp [newTexture, hlen]
        · simp [newTexture, hlen] at he
    · intro hok
      cases dataLen with
      | none => rfl
      | some len =>
        by_cases hlen : len % 4294967296 ≠ width * height * 4 % 4294967296
        · simp [newTexture, hlen] at hok
        · simp [newTexture, hlen]

/-- Witness for C6: on a live context, a 2×2 RGBA texture with 15 bytes of
data is rejected as `InvalidLength` (15 ≠ 16). -/
theorem c6_new_texture_errors_amended_witness :
    (((newTexture (some (⟨0, [], [], 16, []⟩ : SharedRes)) 2 2 (some 15) 9).2
        = Except.error TextureError.invalidLength) ↔ (15 : Nat) ≠ 2 * 2 * 4) ∧
    (newTexture (some (⟨0, [], [], 16, []⟩ : SharedRes)) 2 2 (some 15) 9).2
      = Except.error TextureError.invalidLength :=
  ⟨((c6_new_texture_errors_amended (some ⟨0, [], [], 16, []⟩) 2 2 (some 15) 9).2
      ⟨0, [], [], 16, []⟩ rfl).2.1 15 rfl (by norm_num) (by norm_num),
   rfl⟩

/-- Counterexample to C6 as stated: with `width = 2^30`, `height = 1` the
`u32` product `width*height*4` wraps to 0, so empty data is accepted and the
entry is registered, although `0 ≠ 2^30 * 1 * 4`. -/
theorem c6_new_texture_overflow_counterexample :
    (newTexture (some ⟨0, [], [], 16, []⟩) 1073741824 1 (some 0) 9).2
      = Except.ok 9 ∧
    (newTexture (some ⟨0, [], [], 16, []⟩) 1073741824 1 (some 0) 9).1
      = some ⟨0, [(9, 1073741824, 1)], [], 16, []⟩ ∧
    (0 : Nat) ≠ 1073741824 * 1 * 4 := by
  refine ⟨rfl, rfl, by norm_num⟩

/-- C7 (amended): for a registered texture, an omitted `sub_rect` behaves as
the full stored rectangle `(0, 0, w, h)`; with data, the call fails with
`InvalidLength` iff the data length differs from `rect_w*rect_h*4` computed
in `u32` (modulo `2^32`; plain inequality when the product fits), and
succeeds otherwise. -/
theorem c7_update_texture_length_amended (res : SharedRes)
    (texture w h : Nat) (dataLen : Option Nat)
    (subRect : Option (Nat × Nat × Nat × Nat))
    (hreg : res.textures.find? (fun e => e.1 == texture) = some (texture, w, h)) :
    (updateTexture (some res) texture dataLen none
        = updateTexture (some res) texture dataLen (some (0, 0, w, h))) ∧
    (∀ len rx ry rw rh, dataLen = some len → subRect = some (rx, ry, rw, rh) →
      ((updateTexture (some res) texture dataLen subRect
          = some (some res, Except.error TextureError.invalidLength))
        ↔ len ≠ rw * rh * 4 % 4294967296) ∧
      ((updateTexture (some res) texture dataLen subRect
          = some (some res, Except.ok ()))
        ↔ len = rw * rh * 4 % 4294967296) ∧
      (rw * rh * 4 < 4294967296 →
        ((updateTexture (some res) texture dataLen subRect
            = some (some res, Except.error TextureError.invalidLength))
          ↔ len ≠ rw * rh * 4))) := by
  constructor
  · simp [updateTexture, hreg]
  · intro len rx ry rw rh hd hs
    subst hd
    subst hs
    have hiff1 : (updateTexture (some res) texture (some len) (some (rx, ry, rw, rh))
        = some (some res, Except.error TextureError.invalidLength))
        ↔ len ≠ rw * rh * 4 % 4294967296 := by
      by_cases hlen : len = rw * rh * 4 % 4294967296 <;>
        simp [updateTexture, hreg, hlen]
    have hiff2 : (updateTexture (some res) texture (some len) (some (rx, ry, rw, rh))
        = some (some res, Except.ok ()))
        ↔ len = rw * rh * 4 % 4294967296 := by
      by_cases hlen : len = rw * rh * 4 % 4294967296 <;>
        simp [updateTexture, hreg, hlen]
    refine ⟨hiff1, hiff2, ?_⟩
    intro hfit
    rw [hiff1, Nat.mod_eq_of_lt hfit]

/-- Witness for C7: a registered 2×2 texture accepts a 16-byte update with
sub-rectangle `(0,0,2,2)` and rejects 15 bytes. -/
theorem c7_update_texture_length_amended_witness :
    (updateTexture (some (⟨0, [(7, 2, 2)], [], 16, []⟩ : SharedRes)) 7 (some 16) none
        = updateTexture (some (⟨0, [(7, 2, 2)], [], 16, []⟩ : SharedRes)) 7 (some 16)
            (some (0, 0, 2, 2))) ∧
    ((updateTexture (some (⟨0, [(7, 2, 2)], [], 16, []⟩ : SharedRes)) 7 (some 16)
        (some (0, 0, 2, 2)) = some (some ⟨0, [(7, 2, 2)], [], 16, []⟩, Except.ok ()))
      ↔ (16 : Nat) = 2 * 2 * 4 % 4294967296) ∧
    ((updateTexture (some (⟨0, [(7, 2, 2)], [], 16, []⟩ : SharedRes)) 7 (some 15)
        (some (0, 0, 2, 2))
        = some (some ⟨0, [(7, 2, 2)], [], 16, []⟩,
            Except.error TextureError.invalidLength))
      ↔ (15 : Nat) ≠ 2 * 2 * 4) :=
  ⟨(c7_update_texture_length_amended ⟨0, [(7, 2, 2)], [], 16, []⟩ 7 2 2 (some 16)
      (some (0, 0, 2, 2)) rfl).1,
   ((c7_update_texture_length_amended ⟨0, [(7, 2, 2)], [], 16, []⟩ 7 2 2 (some 16)
      (some (0, 0, 2, 2)) rfl).2 16 0 0 2 2 rfl rfl).2.1,
   ((c7_update_texture_length_amended ⟨0, [(7, 2, 2)], [], 16, []⟩ 7 2 2 (some 15)
      (some (0, 0, 2, 2)) rfl).2 15 0 0 2 2 rfl rfl).2.2 (by norm_num)⟩

/-- Counterexample to C7 as stated: a sub-rectangle of width `2^30` makes the
`u32` product `rect_w*rect_h*4` wrap to 0, so a 0-byte update is accepted
although `0 ≠ 2^30 * 1 * 4`. -/
theorem c7_update_texture_overflow_counterexample :
    updateTexture (some ⟨0, [(7, 2, 2)], [], 16, []⟩) 7 (some 0)
        (some (0, 0, 1073741824, 1))
      = some (some ⟨0, [(7, 2, 2)], [], 16, []⟩, Except.ok ()) ∧
    (0 : Nat) ≠ 1073741824 * 1 * 4 := by
  refine ⟨rfl, by norm_num⟩

/-- C10: `update_texture` with an omitted `sub_rect` and a texture id that
has no registry entry panics on the `unwrap` of the lookup (modelled by
`none`); no `TextureError` is produced for the unknown-id case. -/
theorem c10_update_texture_unknown_id_panics (res : SharedRes) (texture : Nat)
    (dataLen : Option Nat)
    (hmiss : res.textures.find? (fun e => e.1 == texture) = none) :
    updateTexture (some res) texture dataLen none = none := by
  simp [updateTexture, hmiss]

/-- Witness for C10: updating texture id 3 on a renderer whose registry is
empty panics. -/
theorem c10_update_texture_unknown_id_panics_witness :
    updateTexture (some (⟨0, [], [], 16, []⟩ : SharedRes)) 3 (some 16) none = none :=
  c10_update_texture_unknown_id_panics ⟨0, [], [], 16, []⟩ 3 (some 16) rfl

/-! ## Context/window multiplexer (`GlSpriteRender`, lines 425-432, 826-851,
882-925, 1094-1114)

A `Context<T>` is tagged by its glutin typestate; only the tag is relevant to
the claims, so a context value is its tag.  `contexts` models the
`HashMap<WindowId, Option<Context<NotCurrentContext>>>` field and
`current_context` the `Option<(WindowId, Context<PossiblyCurrentContext>)>`
field; `shared_resources_some` records whether `shared_resources` is `Some`.
glutin calls that can only fail through the driver are modelled as
succeeding; `none` models the `unwrap` panics. -/

inductive CtxTag where
  | notCurrent
  | possiblyCurrent
deriving DecidableEq, Repr

structure Ctx where
  tag : CtxTag
deriving DecidableEq, Repr

def makeCurrent (c : Ctx) : Ctx := { c with tag := CtxTag.possiblyCurrent }

def makeNotCurrent (c : Ctx) : Ctx := { c with tag := CtxTag.notCurrent }

structure GlState where
  contexts : List (Nat × Option Ctx)
  current_context : Option (Nat × Ctx)
  shared_resources_some : Bool
deriving DecidableEq, Repr

/-- `GlSpriteRender::set_current_context` (lines 826-851): no-op when the
window is already current (the glutin re-`make_current` does not change the
stored map); otherwise take the requested window's parked context out of the
map (`none` on a missing key or an empty slot: the two `unwrap`s), promote
it, and park the previously current context — taken out of
`current_context` — back into its map slot as not-current. -/
def setCurrentContext (s : GlState) (w : Nat) : Option GlState :=
  match s.current_context with
  | some p =>
    if p.1 = w then
      some s
    else
      match mapGet s.contexts w with
      | none => none
      | some none => none
      | some (some c) =>
        match mapGet (mapSet s.contexts w none) p.1 with
        | none => none
        | some _ =>
          some { s with
            contexts := mapSet (mapSet s.contexts w none) p.1
              (some (makeNotCurrent p.2)),
            current_context := some (w, makeCurrent c) }
  | none =>
    match mapGet s.contexts w with
    | none => none
    | some none => none
    | some (some c) =>
      some { s with
        contexts := mapSet s.contexts w none,
        current_context := some (w, makeCurrent c) }

/-- `GlSpriteRender::add_window` (lines 882-906): create a context sharing
with the current one, park it as not-current, make it current, then set its
vao (which panics if `shared_resources` is `None`). -/
def addWindow (s : GlState) (w : Nat) : Option GlState :=
  match setCurrentContext
      { s with contexts := mapSet s.contexts w (some ⟨CtxTag.notCurrent⟩) } w with
  | none => none
  | some s2 => if s2.shared_resources_some then some s2 else none

/-- `GlSpriteRender::remove_window` (lines 908-925): drop the window's slot;
if it was current, make the current context not-current and drop it too. -/
def removeWindow (s : GlState) (w : Nat) : GlState :=
  match s.current_context with
  | some p =>
    if p.1 = w then
      { s with contexts := mapRemove s.contexts w, current_context := none }
    else
      { s with contexts := mapRemove s.contexts w }
  | none => { s with contexts := mapRemove s.contexts w }

/-- `GlSpriteRender::render` (lines 1094-1102): with no shared resources a
no-op renderer is returned without touching the contexts; otherwise the
window is made current. -/
def renderWindow (s : GlState) (w : Nat) : Option GlState :=
  if s.shared_resources_some then setCurrentContext s w else some s

/-- `GlSpriteRender::resize` (lines 1104-1114): same context switch as
`render` before setting the viewport. -/
def resizeWindow (s : GlState) (w : Nat) : Option GlState :=
  if s.shared_resources_some then setCurrentContext s w else some s

inductive WinOp where
  | addWin (w : Nat)
  | setCurrent (w : Nat)
  | removeWin (w : Nat)
  | render (w : Nat)
  | resize (w : Nat)
deriving DecidableEq, Repr

def applyOp (s : GlState) : WinOp → Option GlState
  | WinOp.addWin w => addWindow s w
  | WinOp.setCurrent w => setCurrentContext s w
  | WinOp.removeWin w => some (removeWindow s w)
  | WinOp.render w => renderWindow s w
  | WinOp.resize w => resizeWindow s w

def runOps (s : GlState) : List WinOp → Option GlState
  | [] => some s
  | op :: ops =>
    match applyOp s op with
    | none => none
    | some s2 => runOps s2 ops

/-- Every context parked in the `contexts` map is tagged `NotCurrent`. -/
def storedNotCurrent (s : GlState) : Bool :=
  s.contexts.all fun p =>
    match p.2 with
    | some c => c.tag == CtxTag.notCurrent
    | none => true

/-- The context in `current_context`, if any, is tagged `PossiblyCurrent`. -/
def currentIsPossibly (s : GlState) : Bool :=
  match s.current_context with
  | some p => p.2.tag == CtxTag.possiblyCurrent
  | none => true

def ctxInv (s : GlState) : Bool := storedNotCurrent s && currentIsPossibly s

/-- Number of contexts in the whole state tagged `PossiblyCurrent`. -/
def possiblyCurrentCount (s : GlState) : Nat :=
  (s.contexts.countP fun p =>
    match p.2 with
    | some c => c.tag == CtxTag.possiblyCurrent
    | none => false)
  + (match s.current_context with
     | some p => if p.2.tag == CtxTag.possiblyCurrent then 1 else 0
     | none => 0)

theorem mapSet_all {α : Type} (P : Nat × α → Bool) :
    ∀ (m : List (Nat × α)) (k : Nat) (v : α),
      m.all P = true → P (k, v) = true → (mapSet m k v).all P = true := by
  intro m
  induction m with
  | nil =>
    intro k v _ hv
    simp [mapSet, hv]
  | cons p m ih =>
    intro k v hm hv
    obtain ⟨k', v'⟩ := p
    have hm2 : P (k', v') = true ∧ m.all P = true := by
      rw [List.all_cons, Bool.and_eq_true] at hm
      exact hm
    by_cases hk : k' = k
    · simp only [mapSet, if_pos hk, List.all_cons]
      rw [Bool.and_eq_true]
      exact ⟨hv, hm2.2⟩
    · simp only [mapSet, if_neg hk, List.all_cons]
      rw [Bool.and_eq_true]
      exact ⟨hm2.1, ih k v hm2.2 hv⟩

theorem mapRemove_all {α : Type} (P : Nat × α → Bool) :
    ∀ (m : List (Nat × α)) (k : Nat),
      m.all P = true → (mapRemove m k).all P = true := by
  intro m
  induction m with
  | nil => intro k _; rfl
  | cons p m ih =>
    intro k hm
    obtain ⟨k', v'⟩ := p
    have hm2 : P (k', v') = true ∧ m.all P = true := by
      rw [List.all_cons, Bool.and_eq_true] at hm
      exact hm
    by_cases hk : k' = k
    · simp only [mapRemove, if_pos hk]
      exact hm2.2
    · simp only [mapRemove, if_neg hk, List.all_cons]
      rw [Bool.and_eq_true]
      exact ⟨hm2.1, ih k hm2.2⟩

theorem mapGet_mapSet_self {α : Type} :
    ∀ (m : List (Nat × α)) (k : Nat) (v : α), mapGet (mapSet m k v) k = some v := by
  intro m
  induction m with
  | nil => intro k v; simp [mapSet, mapGet_cons]
  | cons p m ih =>
    intro k v
    obtain ⟨k', v'⟩ := p
    by_cases hk : k' = k
    · simp [mapSet, hk, mapGet_cons]
    · simp [mapSet, hk, mapGet_cons, ih k v]

theorem mapGet_mapSet_ne {α : Type} :
    ∀ (m : List (Nat × α)) (k u : Nat) (v : α), u ≠ k →
      mapGet (mapSet m k v) u = mapGet m u := by
  intro m
  induction m with
  | nil =>
    intro k u v hu
    have hk : ¬ (k = u) := fun h => hu h.symm
    simp [mapSet, mapGet_cons, mapGet_nil, hk]
  | cons p m ih =>
    intro k u v hu
    obtain ⟨k', v'⟩ := p
    by_cases hk : k' = k
    · subst hk
      have hky : ¬ (k' = u) := fun h => hu h.symm
      simp [mapSet, mapGet_cons, hky]
    · simp [mapSet, hk, mapGet_cons, ih k u v hu]

theorem setCurrentContext_inv (s : GlState) (w : Nat) (s2 : GlState)
    (hinv : ctxInv s = true) (heq : setCurrentContext s w = some s2) :
    ctxInv s2 = true := by
  have hstored : storedNotCurrent s = true := by
    rw [ctxInv, Bool.and_eq_true] at hinv
    exact hinv.1
  unfold setCurrentContext at heq
  split at heq
  · split at heq
    · cases heq
      exact hinv
    · split at heq
      · cases heq
      · cases heq
      · split at heq
        · cases heq
        · cases heq
          rw [ctxInv, Bool.and_eq_true]
          constructor
          · refine mapSet_all _ _ _ _ ?_ rfl
            exact mapSet_all _ s.contexts w none hstored rfl
          · rfl
  · split at heq
    · cases heq
    · cases heq
    · cases heq
      rw [ctxInv, Bool.and_eq_true]
      constructor
      · exact mapSet_all _ s.contexts w none hstored rfl
      · rfl

theorem applyOp_inv (s : GlState) (op : WinOp) (s2 : GlState)
    (hinv : ctxInv s = true) (heq : applyOp s op = some s2) :
    ctxInv s2 = true := by
  cases op with
  | addWin w =>
    simp only [applyOp] at heq
    unfold addWindow at heq
    have hinv1 : ctxInv { s with
        contexts := mapSet s.contexts w (some ⟨CtxTag.notCurrent⟩) } = true := by
      rw [ctxInv, Bool.and_eq_true] at hinv ⊢
      refine ⟨mapSet_all _ s.contexts w _ hinv.1 rfl, hinv.2⟩
    split at heq
    · cases heq
    next s3 hset =>
      split at heq
      · cases heq
        exact setCurrentContext_inv _ w _ hinv1 hset
      · cases heq
  | setCurrent w =>
    exact setCurrentContext_inv s w s2 hinv heq
  | removeWin w =>
    simp only [applyOp] at heq
    cases heq
    rw [ctxInv, Bool.and_eq_true] at hinv
    have hrem : storedNotCurrent
        { s with contexts := mapRemove s.contexts w } = true :=
      mapRemove_all _ s.contexts w hinv.1
    unfold removeWindow
    split
    next p hcur =>
      split
      · rw [ctxInv, Bool.and_eq_true]
        exact ⟨hrem, rfl⟩
      · rw [ctxInv, Bool.and_eq_true]
        exact ⟨hrem, hinv.2⟩
    next hcur =>
      rw [ctxInv, Bool.and_eq_true]
      exact ⟨hrem, hinv.2⟩
  | render w =>
    simp only [applyOp] at heq
    unfold renderWindow at heq
    split at heq
    · exact setCurrentContext_inv s w s2 hinv heq
    · cases heq
      exact hinv
  | resize w =>
    simp only [applyOp] at heq
    unfold resizeWindow at heq
    split at heq
    · exact setCurrentContext_inv s w s2 hinv heq
    · cases heq
      exact hinv

theorem runOps_inv (ops : List WinOp) :
    ∀ (s s2 : GlState), ctxInv s = true → runOps s ops = some s2 →
      ctxInv s2 = true := by
  induction ops with
  | nil =>
    intro s s2 hinv heq
    cases heq
    exact hinv
  | cons op ops ih =>
    intro s s2 hinv heq
    unfold runOps at heq
    match happ : applyOp s op with
    | none => rw [happ] at heq; cases heq
    | some s3 =>
      rw [happ] at heq
      exact ih s3 s2 (applyOp_inv s op s3 hinv happ) heq

theorem countP_eq_zero_of_storedNotCurrent (s : GlState)
    (h : storedNotCurrent s = true) :
    (s.contexts.countP fun p =>
      match p.2 with
      | some c => c.tag == CtxTag.possiblyCurrent
      | none => false) = 0 := by
  rw [List.countP_eq_zero]
  intro p hp
  rw [storedNotCurrent, List.all_eq_true] at h
  have := h p hp
  match hv : p.2 with
  | none => simp
  | some c =>
    rw [hv] at this
    simp only [hv]
    rw [beq_iff_eq] at this
    simp [this]

theorem possiblyCurrentCount_le_one (s : GlState) (h : ctxInv s = true) :
    possiblyCurrentCount s ≤ 1 := by
  rw [ctxInv, Bool.and_eq_true] at h
  rw [possiblyCurrentCount, countP_eq_zero_of_storedNotCurrent s h.1]
  match hcur : s.current_context with
  | none => simp
  | some p => simp only [hcur]; split <;> omega

/-- C4: after any sequence of `add_window`, `set_current_context`,
`remove_window`, `render` and `resize` operations that completes without
panicking, at most one window's context is `PossiblyCurrent` and every
context stored in the map is `NotCurrent`; `set_current_context(w)` leaves
the state unchanged when `w` is already current, and otherwise promotes `w`'s
parked context to `PossiblyCurrent` while demoting the previously current
context to `NotCurrent` in its map slot, leaving all other windows' slots
untouched. -/
theorem c4_current_context_state_machine :
    (∀ (s : GlState) (ops : List WinOp) (s2 : GlState),
      ctxInv s = true → runOps s ops = some s2 →
      ctxInv s2 = true ∧ possiblyCurrentCount s2 ≤ 1) ∧
    (∀ (s : GlState) (w : Nat) (c : Ctx),
      s.current_context = some (w, c) → setCurrentContext s w = some s) ∧
    (∀ (s : GlState) (w v : Nat) (cv cw : Ctx) (s2 : GlState),
      s.current_context = some (v, cv) → v ≠ w →
      mapGet s.contexts w = some (some cw) →
      setCurrentContext s w = some s2 →
      s2.current_context = some (w, makeCurrent cw) ∧
      mapGet s2.contexts v = some (some (makeNotCurrent cv)) ∧
      (∀ u, u ≠ w → u ≠ v → mapGet s2.contexts u = mapGet s.contexts u)) := by
  refine ⟨?_, ?_, ?_⟩
  · intro s ops s2 hinv hrun
    have h2 := runOps_inv ops s s2 hinv hrun
    exact ⟨h2, possiblyCurrentCount_le_one s2 h2⟩
  · intro s w c hcur
    simp [setCurrentContext, hcur]
  · intro s w v cv cw s2 hcur hne hget hset
    unfold setCurrentContext at hset
    rw [hcur] at hset
    simp only [] at hset
    rw [if_neg (by simpa using hne)] at hset
    rw [hget] at hset
    simp only [] at hset
    split at hset
    · cases hset
    · cases hset
      refine ⟨rfl, ?_, ?_⟩
      · exact mapGet_mapSet_self _ v (some (makeNotCurrent cv))
      · intro u hw hv
        rw [mapGet_mapSet_ne _ v u _ hv, mapGet_mapSet_ne _ w u _ hw]

/-- Witness for C4: a two-window renderer switches the current context from
window 0 to window 1 and then removes window 0; applied at concrete states. -/
theorem c4_current_context_state_machine_witness :
    (ctxInv (⟨[(1, none)], some (1, ⟨CtxTag.possiblyCurrent⟩), true⟩ : GlState)
        = true ∧
      possiblyCurrentCount
        (⟨[(1, none)], some (1, ⟨CtxTag.possiblyCurrent⟩), true⟩ : GlState) ≤ 1) ∧
    setCurrentContext
        (⟨[(0, none), (1, some ⟨CtxTag.notCurrent⟩)],
          some (0, ⟨CtxTag.possiblyCurrent⟩), true⟩ : GlState) 0
      = some ⟨[(0, none), (1, some ⟨CtxTag.notCurrent⟩)],
          some (0, ⟨CtxTag.possiblyCurrent⟩), true⟩ ∧
    ((⟨[(0, some ⟨CtxTag.notCurrent⟩), (1, none)],
        some (1, ⟨CtxTag.possiblyCurrent⟩), true⟩ : GlState).current_context
      = some (1, makeCurrent ⟨CtxTag.notCurrent⟩) ∧
     mapGet (⟨[(0, some ⟨CtxTag.notCurrent⟩), (1, none)],
        some (1, ⟨CtxTag.possiblyCurrent⟩), true⟩ : GlState).contexts 0
      = some (some (makeNotCurrent ⟨CtxTag.possiblyCurrent⟩)) ∧
     (∀ u, u ≠ 1 → u ≠ 0 →
       mapGet (⟨[(0, some ⟨CtxTag.notCurrent⟩), (1, none)],
          some (1, ⟨CtxTag.possiblyCurrent⟩), true⟩ : GlState).contexts u
        = mapGet (⟨[(0, none), (1, some ⟨CtxTag.notCurrent⟩)],
            some (0, ⟨CtxTag.possiblyCurrent⟩), true⟩ : GlState).contexts u)) :=
  ⟨c4_current_context_state_machine.1
      ⟨[(0, none), (1, some ⟨CtxTag.notCurrent⟩)],
        some (0, ⟨CtxTag.possiblyCurrent⟩), true⟩
      [WinOp.setCurrent 1, WinOp.removeWin 0]
      ⟨[(1, none)], some (1, ⟨CtxTag.possiblyCurrent⟩), true⟩
      (by decide) (by decide),
   c4_current_context_state_machine.2.1
      ⟨[(0, none), (1, some ⟨CtxTag.notCurrent⟩)],
        some (0, ⟨CtxTag.possiblyCurrent⟩), true⟩
      0 ⟨CtxTag.possiblyCurrent⟩ rfl,
   c4_current_context_state_machine.2.2
      ⟨[(0, none), (1, some ⟨CtxTag.notCurrent⟩)],
        some (0, ⟨CtxTag.possiblyCurrent⟩), true⟩
      1 0 ⟨CtxTag.possiblyCurrent⟩ ⟨CtxTag.notCurrent⟩
      ⟨[(0, some ⟨CtxTag.notCurrent⟩), (1, none)],
        some (1, ⟨CtxTag.possiblyCurrent⟩), true⟩
      rfl (by decide) rfl (by decide)⟩

end SpriteRender
